import Mathlib

/-!
Verification of the CI failure-analysis script (src/main.py).

The script is embedded shallowly: the filesystem interactions of the cache
layer become explicit file states, the paginated HTTP job listing becomes a
function over the full server-side job list (page p of size S is the slice
drop ((p-1)*S) followed by take S), the regex extractions of the log parser
become explicit character scans with the same leftmost-match greedy
semantics, and exception control flow becomes Except values and Option
results. Timestamps are modelled as rationals (Python time() returns a
real-valued float).
-/

/-- JSON values, the payload type of the cache files (json.dump / json.load
in the script round-trip parsed JSON values of this shape). -/
inductive Json where
  | null
  | bool (b : Bool)
  | num (q : ℚ)
  | str (s : String)
  | arr (elems : List Json)
  | obj (fields : List (String × Json))

/-- Dictionary key access cache_data[k]: succeeds only on an object that
has the key; on any other value or a missing key the Python code raises
(TypeError or KeyError), which the caller catches, so those cases are
modelled by none. -/
def Json.getKey : Json → String → Option Json
  | .obj fields, k => fields.lookup k
  | _, _ => none

/-- State of one cache file as seen by a read: the file may be missing,
opening or json.load may raise, or the file holds a parsed JSON value. -/
inductive CacheFileState where
  | missing
  | ioError
  | content (j : Json)

/-- CACHE_EXPIRY = 3600 seconds (src/main.py line 48). -/
def CACHE_EXPIRY : ℚ := 3600

/-- load_cache (src/main.py lines 51-71): return None for a missing file;
otherwise read the JSON envelope, return None if the entry is older than
CACHE_EXPIRY, else return its data field; every exception (I/O error,
malformed JSON, missing timestamp or data key, non-numeric timestamp) is
caught and turned into None. The function only reads, so the returned file
state is the input state. -/
def load_cache (now : ℚ) (file : CacheFileState) : Option Json × CacheFileState :=
  match file with
  | .missing => (none, file)
  | .ioError => (none, file)
  | .content j =>
    match j.getKey "timestamp" with
    | some (.num ts) =>
      if now - ts > CACHE_EXPIRY then (none, file)
      else
        match j.getKey "data" with
        | some d => (some d, file)
        | _ => (none, file)
    | _ => (none, file)

/-- save_cache (src/main.py lines 74-83): write the envelope with the
current timestamp and the data, overwriting the file; any exception while
creating the directory or writing is caught and logged, leaving the file
state unchanged. io_ok records whether the write succeeded. -/
def save_cache (now : ℚ) (data : Json) (io_ok : Bool) (file : CacheFileState) :
    CacheFileState :=
  if io_ok then .content (.obj [("timestamp", .num now), ("data", data)]) else file

/-- C2: saving payload P and loading it again at any time at most
CACHE_EXPIRY after the save returns P unchanged, and leaves the saved file
in place. -/
theorem cache_round_trip (data : Json) (f : CacheFileState) (t_save t_load : ℚ)
    (h : t_load - t_save ≤ CACHE_EXPIRY) :
    load_cache t_load (save_cache t_save data true f) =
      (some data, save_cache t_save data true f) := by
  simp only [save_cache, if_pos]
  simp only [load_cache, Json.getKey, List.lookup]
  norm_num
  rw [if_neg (not_lt.mpr h)]
  rfl

theorem cache_round_trip_witness :
    ((3600 : ℚ) - 0 ≤ CACHE_EXPIRY) ∧
      load_cache 3600 (save_cache 0 (Json.str "x") true .missing) =
        (some (Json.str "x"), save_cache 0 (Json.str "x") true .missing) :=
  ⟨by norm_num [CACHE_EXPIRY],
    cache_round_trip (Json.str "x") .missing 0 3600 (by norm_num [CACHE_EXPIRY])⟩

/-- C3: a cache entry whose stored timestamp is ts, read at time
ts + CACHE_EXPIRY + eps for any eps > 0, is reported absent regardless of
what else the entry holds, and the file state is left untouched. -/
theorem cache_expiry_monotone (j : Json) (ts eps : ℚ)
    (hts : j.getKey "timestamp" = some (.num ts)) (heps : 0 < eps) :
    load_cache (ts + CACHE_EXPIRY + eps) (.content j) = (none, .content j) := by
  simp only [load_cache, hts]
  rw [if_pos]
  linarith

theorem cache_expiry_monotone_witness :
    (Json.obj [("timestamp", Json.num 0), ("data", Json.null)]).getKey "timestamp" =
        some (Json.num 0) ∧
      (0 : ℚ) < 1 ∧
      load_cache (0 + CACHE_EXPIRY + 1)
          (.content (Json.obj [("timestamp", Json.num 0), ("data", Json.null)])) =
        (none, .content (Json.obj [("timestamp", Json.num 0), ("data", Json.null)])) :=
  ⟨rfl, by norm_num,
    cache_expiry_monotone (Json.obj [("timestamp", Json.num 0), ("data", Json.null)])
      0 1 rfl (by norm_num)⟩

/-- C8: cache I/O failures are absorbed: a missing file, a failed or
malformed read, and an envelope without a timestamp field all make
load_cache report absent instead of raising, and a failed write makes
save_cache leave the file state unchanged (a no-op save). -/
theorem cache_failures_nonfatal (now t : ℚ) (j data : Json) (f : CacheFileState)
    (hnone : j.getKey "timestamp" = none) :
    (load_cache now .missing).1 = none ∧
      (load_cache now .ioError).1 = none ∧
      (load_cache now (.content j)).1 = none ∧
      save_cache t data false f = f := by
  refine ⟨rfl, rfl, ?_, rfl⟩
  simp only [load_cache, hnone]

theorem cache_failures_nonfatal_witness :
    Json.null.getKey "timestamp" = none ∧
      (load_cache 5 .missing).1 = none ∧
      (load_cache 5 .ioError).1 = none ∧
      (load_cache 5 (.content Json.null)).1 = none ∧
      save_cache 7 Json.null false .missing = .missing :=
  ⟨rfl,
    (cache_failures_nonfatal 5 7 Json.null Json.null .missing rfl).1,
    (cache_failures_nonfatal 5 7 Json.null Json.null .missing rfl).2.1,
    (cache_failures_nonfatal 5 7 Json.null Json.null .missing rfl).2.2.1,
    (cache_failures_nonfatal 5 7 Json.null Json.null .missing rfl).2.2.2⟩

/-- One job record as returned by the jobs API (the fields the script
reads: id, name, conclusion, started_at, html_url). -/
structure Job where
  id : Nat
  name : String
  conclusion : String
  started_at : String
  html_url : String
deriving DecidableEq

/-- The jobs cache payload: a dictionary from str(run_id) to the run's
failed-job list, as stored in job_failures.json. -/
abbrev JobsCache : Type := List (String × List Job)

/-- Python dict assignment jobs_cache[k] = v: replace the value if the key
is present, otherwise append the new binding. -/
def dictInsert (k : String) (v : List Job) (m : JobsCache) : JobsCache :=
  if (List.lookup k m).isSome then
    m.map (fun p => if p.1 = k then (k, v) else p)
  else m ++ [(k, v)]

/-- The pagination loop of find_failed_jobs (src/main.py lines 121-141).
The server holds a fixed job list for the run; requesting page p with
page size per_page returns the slice (server.drop ((p-1)*per_page)).take
per_page, so the loop state after the first p-1 full pages is the suffix
of the list not yet delivered, which is the argument here. Returns the
concatenated raw jobs together with the number of pages requested; the
loop breaks on an empty page and after the first page shorter than
per_page. -/
def fetch_all_jobs (per_page : Nat) (server : List Job) : List Job × Nat :=
  if (server.take per_page).isEmpty then ([], 1)
  else if (server.take per_page).length < per_page then (server.take per_page, 1)
  else ((server.take per_page) ++ (fetch_all_jobs per_page (server.drop per_page)).1,
        (fetch_all_jobs per_page (server.drop per_page)).2 + 1)
termination_by server.length
decreasing_by
  all_goals
    simp only [List.isEmpty_iff, List.length_take, List.length_drop] at *
    rcases server with _ | ⟨a, l⟩
    · simp at *
    · simp_all
      omega

/-- Errors that can escape a single log fetch: requests.HTTPError raised
by raise_for_status, the explicit Exception for a non-redirect response
(src/main.py line 193), and the KeyError on a 302 without a Location
header. -/
inductive LogFetchError where
  | httpError (status : Nat)
  | unexpectedResponse
  | missingLocation
deriving DecidableEq

/-- The per-job log loop of find_failed_jobs (src/main.py lines 146-151):
for each failed job named yarn-project-test, attempt the log fetch and
catch any exception, logging a warning. Returns the ids whose fetch
raised; the loop itself never propagates a failure. -/
def fetch_logs_loop (oracle : Nat → Except LogFetchError String) (jobs : List Job) :
    List Nat :=
  jobs.filterMap (fun job =>
    if job.name = "yarn-project-test" then
      match oracle job.id with
      | .ok _ => none
      | .error _ => some job.id
    else none)

/-- Result of one find_failed_jobs call: the returned list, the full map
handed to save_cache (none when the call was served from cache and saved
nothing), and the warnings from caught log-fetch failures. -/
structure FFJResult where
  failed_jobs : List Job
  saved_map : Option JobsCache
  warnings : List Nat

/-- find_failed_jobs (src/main.py lines 110-157): use the cached list for
this run when the loaded map has it; otherwise fetch all pages, keep the
jobs whose conclusion is failure, run the log loop over them, store the
list in the map under str(run_id) and save the whole map. loaded is the
result load_cache produced for job_failures.json (none meaning miss, the
code then uses an empty dict); oracle is the outcome of get_job_logs per
job id. -/
def find_failed_jobs (run_id : Nat) (loaded : Option JobsCache) (server : List Job)
    (oracle : Nat → Except LogFetchError String) : FFJResult :=
  match List.lookup (toString run_id) (loaded.getD []) with
  | some cached => ⟨cached, none, []⟩
  | none =>
    let failed := (fetch_all_jobs 100 server).1.filter
      (fun job => job.conclusion == "failure")
    ⟨failed, some (dictInsert (toString run_id) failed (loaded.getD [])),
      fetch_logs_loop oracle failed⟩

/-- Helper: with page size 100, the pagination loop delivers the whole
server list and requests exactly length / 100 + 1 pages (proved by
induction on a bound on the list length). -/
theorem fetch_all_jobs_bound :
    ∀ (n : Nat) (server : List Job), server.length ≤ n →
      fetch_all_jobs 100 server = (server, server.length / 100 + 1) := by
  intro n
  induction n with
  | zero =>
    intro server h
    have hnil : server = [] := List.eq_nil_of_length_eq_zero (Nat.le_zero.mp h)
    subst hnil
    rw [fetch_all_jobs]
    simp
  | succ n ih =>
    intro server h
    rw [fetch_all_jobs]
    by_cases h1 : (server.take 100).isEmpty
    · rw [if_pos h1]
      have hnil : server = [] := by
        rcases server with _ | ⟨a, l⟩
        · rfl
        · simp [List.take_succ_cons] at h1
      subst hnil
      simp
    · rw [if_neg h1]
      by_cases h2 : (server.take 100).length < 100
      · rw [if_pos h2]
        simp only [List.length_take] at h2
        have hlt : server.length < 100 := by omega
        rw [List.take_of_length_le (Nat.le_of_lt hlt)]
        rw [Nat.div_eq_of_lt hlt]
      · rw [if_neg h2]
        simp only [List.length_take] at h2
        have hge : 100 ≤ server.length := by omega
        have hdrop : (server.drop 100).length ≤ n := by
          simp only [List.length_drop]
          omega
        rw [ih (server.drop 100) hdrop]
        simp only [List.length_drop]
        rw [List.take_append_drop]
        have : (server.length - 100) / 100 + 1 = server.length / 100 := by omega
        rw [this]

/-- Helper: closed form of the pagination loop at the fixed page size 100
used by the script. -/
theorem fetch_all_jobs_100 (server : List Job) :
    fetch_all_jobs 100 server = (server, server.length / 100 + 1) :=
  fetch_all_jobs_bound server.length server le_rfl

/-- C1: for a job list of N full pages of size 100 plus a final partial
page of R < 100 jobs, the pagination loop of find_failed_jobs collects all
N*100 + R raw jobs before filtering and requests exactly N+1 pages,
halting at the first page with fewer than 100 items (the empty page N+1
when R = 0). -/
theorem pagination_completeness (server : List Job) (N R : Nat)
    (hlen : server.length = N * 100 + R) (hR : R < 100) :
    (fetch_all_jobs 100 server).1 = server ∧
      (fetch_all_jobs 100 server).1.length = N * 100 + R ∧
      (fetch_all_jobs 100 server).2 = N + 1 := by
  rw [fetch_all_jobs_100]
  refine ⟨rfl, hlen, ?_⟩
  simp only [hlen]
  omega

/-- A concrete failed job used in closed-form checks. -/
def exampleJob : Job :=
  ⟨1, "build", "failure", "2024-01-01T00:00:00Z", "https://github.example/job/1"⟩

/-- A concrete passing job used in closed-form checks. -/
def passJob : Job :=
  ⟨2, "lint", "success", "2024-01-01T00:05:00Z", "https://github.example/job/2"⟩

/-- A concrete failed yarn-project-test job used in closed-form checks. -/
def yarnJob : Job :=
  ⟨3, "yarn-project-test", "failure", "2024-01-01T00:10:00Z", "https://github.example/job/3"⟩

theorem pagination_completeness_witness :
    (List.replicate 105 exampleJob).length = 1 * 100 + 5 ∧ 5 < 100 ∧
      ((fetch_all_jobs 100 (List.replicate 105 exampleJob)).1 =
          List.replicate 105 exampleJob ∧
        (fetch_all_jobs 100 (List.replicate 105 exampleJob)).1.length = 1 * 100 + 5 ∧
        (fetch_all_jobs 100 (List.replicate 105 exampleJob)).2 = 1 + 1) :=
  ⟨by simp, by norm_num,
    pagination_completeness (List.replicate 105 exampleJob) 1 5 (by simp) (by norm_num)⟩

/-- C5: on a cache miss for the run, the returned failed-job list is
exactly the filter of the concatenated fetched pages to the jobs whose
conclusion is failure, in the original relative order (it is a sublist of
the raw fetched list). -/
theorem filter_correctness (run_id : Nat) (loaded : Option JobsCache)
    (server : List Job) (oracle : Nat → Except LogFetchError String)
    (hmiss : List.lookup (toString run_id) (loaded.getD []) = none) :
    (find_failed_jobs run_id loaded server oracle).failed_jobs =
        ((fetch_all_jobs 100 server).1).filter (fun job => job.conclusion == "failure") ∧
      (∀ job, job ∈ (find_failed_jobs run_id loaded server oracle).failed_jobs ↔
        job ∈ (fetch_all_jobs 100 server).1 ∧ job.conclusion = "failure") ∧
      List.Sublist (find_failed_jobs run_id loaded server oracle).failed_jobs
        (fetch_all_jobs 100 server).1 := by
  have hf : (find_failed_jobs run_id loaded server oracle).failed_jobs =
      ((fetch_all_jobs 100 server).1).filter (fun job => job.conclusion == "failure") := by
    simp only [find_failed_jobs, hmiss]
  refine ⟨hf, ?_, ?_⟩
  · intro job
    rw [hf]
    simp [List.mem_filter]
  · rw [hf]
    exact List.filter_sublist _

theorem filter_correctness_witness :
    List.lookup (toString 1) ((none : Option JobsCache).getD []) = none ∧
      (find_failed_jobs 1 none [exampleJob, passJob]
          (fun _ => Except.ok "")).failed_jobs =
        ((fetch_all_jobs 100 [exampleJob, passJob]).1).filter
          (fun job => job.conclusion == "failure") ∧
      List.Sublist (find_failed_jobs 1 none [exampleJob, passJob]
          (fun _ => Except.ok "")).failed_jobs
        (fetch_all_jobs 100 [exampleJob, passJob]).1 :=
  ⟨rfl,
    (filter_correctness 1 none [exampleJob, passJob] (fun _ => Except.ok "") rfl).1,
    (filter_correctness 1 none [exampleJob, passJob] (fun _ => Except.ok "") rfl).2.2⟩

/-- C6: on a cache miss for a run, the map handed to save_cache is the
whole loaded map extended with the new run entry: it contains the new
entry and every entry that was in the loaded cache map. -/
theorem jobs_cache_additive (run_id : Nat) (m : JobsCache) (server : List Job)
    (oracle : Nat → Except LogFetchError String)
    (hmiss : List.lookup (toString run_id) m = none) :
    ∃ saved : JobsCache,
      (find_failed_jobs run_id (some m) server oracle).saved_map = some saved ∧
      saved = m ++ [(toString run_id,
        ((fetch_all_jobs 100 server).1).filter (fun job => job.conclusion == "failure"))] ∧
      (toString run_id,
        ((fetch_all_jobs 100 server).1).filter
          (fun job => job.conclusion == "failure")) ∈ saved ∧
      ∀ e ∈ m, e ∈ saved := by
  refine ⟨m ++ [(toString run_id,
    ((fetch_all_jobs 100 server).1).filter (fun job => job.conclusion == "failure"))],
    ?_, rfl, ?_, ?_⟩
  · simp only [find_failed_jobs, Option.getD_some, hmiss, dictInsert,
      Option.isSome_none, Bool.false_eq_true, if_false]
  · exact List.mem_append_right _ (by simp)
  · intro e he
    exact List.mem_append_left _ he

theorem jobs_cache_additive_witness :
    List.lookup (toString 7) [("5", [exampleJob])] = none ∧
      ∃ saved : JobsCache,
        (find_failed_jobs 7 (some [("5", [exampleJob])]) [exampleJob, passJob]
            (fun _ => Except.ok "")).saved_map = some saved ∧
        saved = [("5", [exampleJob])] ++ [(toString 7,
          ((fetch_all_jobs 100 [exampleJob, passJob]).1).filter
            (fun job => job.conclusion == "failure"))] ∧
        (toString 7,
          ((fetch_all_jobs 100 [exampleJob, passJob]).1).filter
            (fun job => job.conclusion == "failure")) ∈ saved ∧
        ∀ e ∈ [("5", [exampleJob])], e ∈ saved :=
  ⟨rfl, jobs_cache_additive 7 [("5", [exampleJob])] [exampleJob, passJob]
    (fun _ => Except.ok "") rfl⟩

/-- C9: on a cache miss, any failure of the per-job log retrieval is
caught: the returned failed-job list and the saved map do not depend on
the log-fetch outcomes at all, and with any oracle (including ones that
always fail) the full filtered list is still returned and stored in the
map. -/
theorem log_failures_nonfatal (run_id : Nat) (loaded : Option JobsCache)
    (server : List Job) (oracle1 oracle2 : Nat → Except LogFetchError String)
    (hmiss : List.lookup (toString run_id) (loaded.getD []) = none) :
    (find_failed_jobs run_id loaded server oracle1).failed_jobs =
        (find_failed_jobs run_id loaded server oracle2).failed_jobs ∧
      (find_failed_jobs run_id loaded server oracle1).saved_map =
        (find_failed_jobs run_id loaded server oracle2).saved_map ∧
      (find_failed_jobs run_id loaded server oracle1).failed_jobs =
        ((fetch_all_jobs 100 server).1).filter (fun job => job.conclusion == "failure") ∧
      (find_failed_jobs run_id loaded server oracle1).saved_map =
        some (dictInsert (toString run_id)
          (((fetch_all_jobs 100 server).1).filter (fun job => job.conclusion == "failure"))
          (loaded.getD [])) := by
  simp only [find_failed_jobs, hmiss]
  refine ⟨?_, ?_, ?_, ?_⟩ <;> trivial

theorem log_failures_nonfatal_witness :
    List.lookup (toString 9) ((none : Option JobsCache).getD []) = none ∧
      (find_failed_jobs 9 none [yarnJob, passJob]
          (fun _ => Except.error LogFetchError.unexpectedResponse)).failed_jobs =
        (find_failed_jobs 9 none [yarnJob, passJob]
          (fun _ => Except.ok "log text")).failed_jobs ∧
      (find_failed_jobs 9 none [yarnJob, passJob]
          (fun _ => Except.error LogFetchError.unexpectedResponse)).failed_jobs =
        ((fetch_all_jobs 100 [yarnJob, passJob]).1).filter
          (fun job => job.conclusion == "failure") :=
  ⟨rfl,
    (log_failures_nonfatal 9 none [yarnJob, passJob]
      (fun _ => Except.error LogFetchError.unexpectedResponse)
      (fun _ => Except.ok "log text") rfl).1,
    (log_failures_nonfatal 9 none [yarnJob, passJob]
      (fun _ => Except.error LogFetchError.unexpectedResponse)
      (fun _ => Except.ok "log text") rfl).2.2.1⟩

/-- An HTTP response as the script sees it: status code, the optional
Location header, and the body text. -/
structure HttpResponse where
  status : Nat
  location : Option String
  body : String

/-- response.raise_for_status of the requests library: raises
requests.HTTPError exactly for status codes 400-599, otherwise does
nothing. -/
def raise_for_status (r : HttpResponse) : Except LogFetchError Unit :=
  if 400 ≤ r.status ∧ r.status < 600 then .error (.httpError r.status) else .ok ()

/-- get_job_logs (src/main.py lines 160-193): return a fresh cached log
file when one exists (cached holds its contents in that case); otherwise
request the logs endpoint without following redirects, call
raise_for_status on the response, then on a 302 read the Location header
(KeyError when absent), fetch the redirect target, raise_for_status it,
persist and return its body; on any other status that survived
raise_for_status raise the Expected-redirect Exception. download gives
the response of the unauthenticated fetch of the redirect target. -/
def get_job_logs (cached : Option String) (resp : HttpResponse)
    (download : String → HttpResponse) : Except LogFetchError String :=
  match cached with
  | some text => .ok text
  | none =>
    match raise_for_status resp with
    | .error e => .error e
    | .ok _ =>
      if resp.status == 302 then
        match resp.location with
        | none => .error .missingLocation
        | some url =>
          match raise_for_status (download url) with
          | .error e => .error e
          | .ok _ => .ok (download url).body
      else .error .unexpectedResponse

/-- C7 counterexample: with no fresh cached log and a 404 reply from the
log-download endpoint, get_job_logs fails with the HTTPError raised by
raise_for_status, which is not the Expected-redirect protocol-violation
error, so a non-302 status does not always produce UnexpectedResponse as
the claim states. -/
theorem get_job_logs_404_not_unexpected :
    get_job_logs none ⟨404, none, ""⟩ (fun _ => ⟨200, none, "logs"⟩) =
        .error (.httpError 404) ∧
      LogFetchError.httpError 404 ≠ LogFetchError.unexpectedResponse :=
  ⟨rfl, by decide⟩

/-- C7 amended: with no fresh cached log, a reply with status below 400
and different from 302 fails with the Expected-redirect UnexpectedResponse
error; a status in 400-599 instead fails with the HTTPError raised by
raise_for_status before the redirect check; a 302 without a Location
header fails with the KeyError on the missing header; and in every case
the failure is caught per job inside find_failed_jobs, whose returned list
and saved map do not depend on the log-fetch outcome. -/
theorem get_job_logs_error_classification (resp : HttpResponse)
    (download : String → HttpResponse) :
    (resp.status < 400 → resp.status ≠ 302 →
      get_job_logs none resp download = .error .unexpectedResponse) ∧
    (400 ≤ resp.status → resp.status < 600 →
      get_job_logs none resp download = .error (.httpError resp.status)) ∧
    (resp.status = 302 → resp.location = none →
      get_job_logs none resp download = .error .missingLocation) ∧
    (∀ (run_id : Nat) (loaded : Option JobsCache) (server : List Job)
        (oracle1 oracle2 : Nat → Except LogFetchError String),
      (find_failed_jobs run_id loaded server oracle1).failed_jobs =
          (find_failed_jobs run_id loaded server oracle2).failed_jobs ∧
        (find_failed_jobs run_id loaded server oracle1).saved_map =
          (find_failed_jobs run_id loaded server oracle2).saved_map) := by
  refine ⟨?_, ?_, ?_, ?_⟩
  · intro hlt hne
    simp only [get_job_logs, raise_for_status]
    rw [if_neg (by omega : ¬(400 ≤ resp.status ∧ resp.status < 600))]
    rw [if_neg (by simpa using hne)]
  · intro h4 h6
    simp only [get_job_logs, raise_for_status]
    rw [if_pos ⟨h4, h6⟩]
  · intro h302 hloc
    simp only [get_job_logs, raise_for_status]
    rw [if_neg (by omega : ¬(400 ≤ resp.status ∧ resp.status < 600))]
    rw [if_pos (by simpa using h302), hloc]
  · intro run_id loaded server oracle1 oracle2
    cases hmiss : List.lookup (toString run_id) (loaded.getD []) with
    | some cached =>
      simp only [find_failed_jobs, hmiss]
      refine ⟨?_, ?_⟩ <;> trivial
    | none =>
      simp only [find_failed_jobs, hmiss]
      refine ⟨?_, ?_⟩ <;> trivial

theorem get_job_logs_error_classification_witness :
    (200 : Nat) < 400 ∧ (200 : Nat) ≠ 302 ∧
      get_job_logs none ⟨200, none, "body"⟩ (fun _ => ⟨200, none, "logs"⟩) =
        .error .unexpectedResponse :=
  ⟨by norm_num, by norm_num,
    (get_job_logs_error_classification ⟨200, none, "body"⟩
      (fun _ => ⟨200, none, "logs"⟩)).1 (by norm_num) (by norm_num)⟩

/-- The literal marker the parser looks for in a log line. -/
def FAIL_MARKER : List Char := " FAIL ".toList

/-- Python substring membership needle in haystack. -/
def containsSub (needle : List Char) : List Char → Bool
  | [] => needle.isEmpty
  | c :: cs => needle.isPrefixOf (c :: cs) || containsSub needle cs

/-- Character class of the package regex after the fixed prefix:
letters, digits and hyphen. -/
def pkgChar (c : Char) : Bool := c.isAlphanum || c == '-'

/-- The fixed opening of the package pattern: a bracket followed by the
required namespace. -/
def PKG_OPENING : List Char := "[@aztec/".toList

/-- Attempt the package regex at the start of cs. The pattern is the
PKG_OPENING literal, a nonempty greedy run of pkgChar, then a closing
bracket; since the closing bracket is not in the class, backtracking the
greedy run can never help, so the run is exactly the maximal class run
after the literal and the next character must close the bracket. group(1)
is the part inside the brackets. -/
def matchPkgAt (cs : List Char) : Option String :=
  if PKG_OPENING.isPrefixOf cs then
    if ((cs.drop PKG_OPENING.length).takeWhile pkgChar).isEmpty then none
    else
      match (cs.drop PKG_OPENING.length).drop
          ((cs.drop PKG_OPENING.length).takeWhile pkgChar).length with
      | ']' :: _ =>
        some (String.mk ("@aztec/".toList ++ (cs.drop PKG_OPENING.length).takeWhile pkgChar))
      | _ => none
  else none

/-- re.search for the package pattern: try each start position from the
left and return the first success. -/
def findPkg : List Char → Option String
  | [] => none
  | c :: cs =>
    match matchPkgAt (c :: cs) with
    | some s => some s
    | none => findPkg cs

/-- Character class of the test-file regex: letters, digits and slash
(no dot, hyphen or underscore). -/
def tfChar (c : Char) : Bool := c.isAlphanum || c == '/'

/-- The fixed suffix of the test-file pattern. -/
def TEST_SUFFIX : List Char := ".test.ts".toList

/-- Attempt the test-file regex at the start of cs: a nonempty greedy run
of tfChar followed by the literal suffix. The literal starts with a dot,
which is outside the class, so backtracking the greedy run can never
help: the run is the maximal class run at this position and the literal
must follow it. group(0) is the run together with the suffix. -/
def matchTestFileAt (cs : List Char) : Option String :=
  if (cs.takeWhile tfChar).isEmpty then none
  else if TEST_SUFFIX.isPrefixOf (cs.drop (cs.takeWhile tfChar).length) then
    some (String.mk (cs.takeWhile tfChar ++ TEST_SUFFIX))
  else none

/-- re.search for the test-file pattern: try each start position from the
left and return the first success. -/
def findTestFile : List Char → Option String
  | [] => none
  | c :: cs =>
    match matchTestFileAt (c :: cs) with
    | some s => some s
    | none => findTestFile cs

/-- The record string built for a failure (src/main.py line 264). -/
def mkFailureRecord (package test_file : String) : String :=
  package ++ " (" ++ test_file ++ ")"

/-- One iteration of the parse loop (src/main.py lines 250-267): a line
contributes a record only when it contains the FAIL marker and both
pattern extractions succeed; otherwise it contributes nothing. -/
def parse_fail_line (line : String) : Option String :=
  if containsSub FAIL_MARKER line.toList then
    match findPkg line.toList, findTestFile line.toList with
    | some package, some test_file => some (mkFailureRecord package test_file)
    | _, _ => none
  else none

/-- Accumulator pass for splitlines: collect the current line in reverse
and emit it at each newline; a trailing line without a final newline is
emitted too, and a trailing newline produces no extra empty line. -/
def logLinesAux : List Char → List Char → List String
  | acc, [] => if acc.isEmpty then [] else [String.mk acc.reverse]
  | acc, c :: cs =>
    if c = '\n' then String.mk acc.reverse :: logLinesAux [] cs
    else logLinesAux (c :: acc) cs

/-- splitlines of the log body, modelled as splitting on the newline
character (Python also splits on rarer line terminators, which do not
occur in these claims). -/
def logLines (s : String) : List String := logLinesAux [] s.toList

/-- parse_test_failures (src/main.py lines 247-269): collect the records
of all qualifying lines and deduplicate them (the Python code returns
list(set(failures)), whose element order is unspecified; dedup is the
canonical choice and all theorems below are order-insensitive). -/
def parse_test_failures (log_content : String) : List String :=
  ((logLines log_content).filterMap parse_fail_line).dedup

/-- Helper: Boolean list prefix test agrees with the existence of a
completing tail. -/
theorem isPrefixOf_eq_true_iff (l1 l2 : List Char) :
    l1.isPrefixOf l2 = true ↔ ∃ t, l2 = l1 ++ t := by
  induction l1 generalizing l2 with
  | nil => simp [List.isPrefixOf]
  | cons a as ih =>
    cases l2 with
    | nil => simp [List.isPrefixOf]
    | cons b bs =>
      simp only [List.isPrefixOf, Bool.and_eq_true, beq_iff_eq, ih, List.cons_append,
        List.cons.injEq]
      constructor
      · rintro ⟨rfl, t, rfl⟩
        exact ⟨t, rfl, rfl⟩
      · rintro ⟨t, rfl, rfl⟩
        exact ⟨rfl, t, rfl⟩

/-- Helper: takeWhile runs through a block that satisfies the predicate
everywhere. -/
theorem takeWhile_append_all (p : Char → Bool) (l1 l2 : List Char)
    (h : ∀ c ∈ l1, p c = true) :
    (l1 ++ l2).takeWhile p = l1 ++ l2.takeWhile p := by
  induction l1 with
  | nil => simp
  | cons a l ih =>
    simp only [List.cons_append, List.takeWhile_cons]
    rw [h a (by simp)]
    simp only [if_true]
    rw [ih (fun c hc => h c (by simp [hc]))]

/-- Helper: dropping the length of the maximal takeWhile run is the same
as dropWhile. -/
theorem drop_length_takeWhile (p : Char → Bool) (l : List Char) :
    l.drop (l.takeWhile p).length = l.dropWhile p := by
  induction l with
  | nil => rfl
  | cons a t ih =>
    by_cases h : p a
    · simp [List.takeWhile_cons, List.dropWhile_cons, h, ih]
    · simp [List.takeWhile_cons, List.dropWhile_cons, h]

/-- Helper: a successful test-file match at a position decomposes that
position into a nonempty class-character run followed by the literal
suffix, and the extracted string is exactly run plus suffix. -/
theorem matchTestFileAt_some (cs : List Char) (s : String)
    (h : matchTestFileAt cs = some s) :
    ∃ run rest, cs = run ++ TEST_SUFFIX ++ rest ∧ run ≠ [] ∧
      (∀ c ∈ run, tfChar c = true) ∧ s = String.mk (run ++ TEST_SUFFIX) := by
  by_cases h1 : (cs.takeWhile tfChar).isEmpty
  · simp [matchTestFileAt, h1] at h
  · by_cases h2 : TEST_SUFFIX.isPrefixOf (cs.drop (cs.takeWhile tfChar).length)
    · obtain ⟨rest, hrest⟩ := (isPrefixOf_eq_true_iff _ _).mp h2
      refine ⟨cs.takeWhile tfChar, rest, ?_, ?_, ?_, ?_⟩
      · conv_lhs => rw [← List.takeWhile_append_dropWhile (p := tfChar) (l := cs)]
        rw [List.append_assoc, ← hrest, drop_length_takeWhile]
      · intro hnil
        rw [hnil] at h1
        exact h1 rfl
      · intro c hc
        exact List.mem_takeWhile_imp hc
      · simp only [matchTestFileAt, h1, h2] at h
        simp at h
        exact h.symm
    · simp [matchTestFileAt, h1, h2] at h

/-- Helper: conversely, a position that starts with a nonempty class run
followed by the literal suffix makes the test-file match succeed with
exactly that run. -/
theorem matchTestFileAt_of_decomp (run rest : List Char) (hne : run ≠ [])
    (hall : ∀ c ∈ run, tfChar c = true) :
    matchTestFileAt (run ++ TEST_SUFFIX ++ rest) =
      some (String.mk (run ++ TEST_SUFFIX)) := by
  have htw : ((run ++ TEST_SUFFIX ++ rest).takeWhile tfChar) = run := by
    rw [List.append_assoc, takeWhile_append_all tfChar run (TEST_SUFFIX ++ rest) hall]
    have : (TEST_SUFFIX ++ rest).takeWhile tfChar = [] := by
      simp [TEST_SUFFIX, List.takeWhile_cons, tfChar]
    rw [this, List.append_nil]
  have hdrop : (run ++ TEST_SUFFIX ++ rest).drop
      ((run ++ TEST_SUFFIX ++ rest).takeWhile tfChar).length = TEST_SUFFIX ++ rest := by
    rw [htw, List.append_assoc, List.drop_left]
  simp only [matchTestFileAt, htw, hdrop]
  rw [if_neg (by simp [hne])]
  rw [List.append_assoc, List.drop_left]
  rw [if_pos ((isPrefixOf_eq_true_iff _ _).mpr ⟨rest, rfl⟩)]

/-- C10: whatever findTestFile extracts is a substring of the line made
of a nonempty run of letters, digits and slashes followed by the literal
suffix, and the run is maximal on the left: the character right before it
(when one exists) is outside the class, so a hyphen, underscore or extra
dot before the suffix cuts the extracted name down to the tail after the
last such character. -/
theorem test_file_truncation (cs : List Char) (s : String)
    (h : findTestFile cs = some s) :
    ∃ pre run rest, cs = pre ++ run ++ TEST_SUFFIX ++ rest ∧ run ≠ [] ∧
      (∀ c ∈ run, tfChar c = true) ∧
      (∀ c, pre.getLast? = some c → tfChar c = false) ∧
      s = String.mk (run ++ TEST_SUFFIX) := by
  induction cs with
  | nil => simp [findTestFile] at h
  | cons a t ih =>
    rw [findTestFile] at h
    cases hm : matchTestFileAt (a :: t) with
    | some s0 =>
      rw [hm] at h
      obtain ⟨run, rest, hdecomp, hne, hall, hs⟩ := matchTestFileAt_some _ _ hm
      refine ⟨[], run, rest, by simpa using hdecomp, hne, hall, ?_, ?_⟩
      · intro c hc
        simp at hc
      · cases h
        exact hs
    | none =>
      rw [hm] at h
      obtain ⟨pre, run, rest, hd, hne, hall, hlast, hs⟩ := ih h
      refine ⟨a :: pre, run, rest, by simp [hd], hne, hall, ?_, hs⟩
      intro c hc
      cases pre with
      | nil =>
        have hac : a = c := by simpa using hc
        rw [← hac]
        by_contra habs
        have hta : tfChar a = true := by
          revert habs
          cases tfChar a <;> simp
        have hd' : a :: t = (a :: run) ++ TEST_SUFFIX ++ rest := by
          simp only [List.nil_append] at hd
          simp [hd]
        have hsome := matchTestFileAt_of_decomp (a :: run) rest (by simp)
          (by
            intro x hx
            rcases List.mem_cons.mp hx with hx1 | hx2
            · rw [hx1]; exact hta
            · exact hall x hx2)
        rw [← hd'] at hsome
        rw [hsome] at hm
        exact Option.noConfusion hm
      | cons b pre2 =>
        apply hlast
        simpa [List.getLast?_cons_cons] using hc

/-- A concrete log line whose test-file name contains a hyphen before the
suffix. -/
def truncLine : String := "12:34 FAIL [@aztec/prover-node] prover-node.test.ts"

theorem test_file_truncation_witness :
    findTestFile truncLine.toList = some "node.test.ts" ∧
      ∃ pre run rest, truncLine.toList = pre ++ run ++ TEST_SUFFIX ++ rest ∧ run ≠ [] ∧
        (∀ c ∈ run, tfChar c = true) ∧
        (∀ c, pre.getLast? = some c → tfChar c = false) ∧
        "node.test.ts" = String.mk (run ++ TEST_SUFFIX) :=
  ⟨by decide, test_file_truncation truncLine.toList "node.test.ts" (by decide)⟩

/-- C4: a line that contains the FAIL marker and matches both the package
pattern and the test-file pattern contributes exactly the record
package (file), and that record occurs exactly once in the output of
parse_test_failures however often qualifying duplicate lines appear in
the log; a line where either pattern fails to match contributes
nothing. -/
theorem parser_precision (log line package test_file : String)
    (hline : line ∈ logLines log) :
    (containsSub FAIL_MARKER line.toList = true →
      findPkg line.toList = some package →
      findTestFile line.toList = some test_file →
      parse_fail_line line = some (mkFailureRecord package test_file) ∧
        (parse_test_failures log).count (mkFailureRecord package test_file) = 1) ∧
    ((findPkg line.toList = none ∨ findTestFile line.toList = none) →
      parse_fail_line line = none) := by
  constructor
  · intro hm hp hf
    have hline_eq : parse_fail_line line = some (mkFailureRecord package test_file) := by
      simp only [parse_fail_line, hm, if_true, hp, hf]
    refine ⟨hline_eq, ?_⟩
    have hmem : mkFailureRecord package test_file ∈ parse_test_failures log := by
      unfold parse_test_failures
      rw [List.mem_dedup]
      exact List.mem_filterMap.mpr ⟨line, hline, hline_eq⟩
    exact List.count_eq_one_of_mem (List.nodup_dedup _) hmem
  · intro hor
    by_cases hm : containsSub FAIL_MARKER line.toList = true
    · simp only [parse_fail_line, hm, if_true]
      rcases hor with h | h
      · rw [h]
      · rw [h]
        cases hpk : findPkg line.toList <;> rfl
    · simp [parse_fail_line, hm]
      intro hmm
      exact absurd hmm hm

/-- A concrete qualifying log line. -/
def failLine : String := "12:34 FAIL [@aztec/foo] src/baz.test.ts"

/-- A log consisting of the same qualifying line twice. -/
def failLog : String :=
  "12:34 FAIL [@aztec/foo] src/baz.test.ts\n12:34 FAIL [@aztec/foo] src/baz.test.ts"

theorem parser_precision_witness :
    failLine ∈ logLines failLog ∧
      containsSub FAIL_MARKER failLine.toList = true ∧
      findPkg failLine.toList = some "@aztec/foo" ∧
      findTestFile failLine.toList = some "src/baz.test.ts" ∧
      (parse_fail_line failLine = some (mkFailureRecord "@aztec/foo" "src/baz.test.ts") ∧
        (parse_test_failures failLog).count
          (mkFailureRecord "@aztec/foo" "src/baz.test.ts") = 1) :=
  ⟨by decide, by decide, by decide, by decide,
    (parser_precision failLog failLine "@aztec/foo" "src/baz.test.ts" (by decide)).1
      (by decide) (by decide) (by decide)⟩
